import Mathlib

/-!
Verification development for the Battery_Charge_Manager repository.

The Rust sources under `src/core` are shallowly embedded: each Rust function
that the specification talks about is translated into an executable Lean
definition.  The filesystem (sysfs) is made explicit: a directory scan becomes
a list of entries, and the readable files of a device become a function from
file name to `Option String` (`none` models a missing/unreadable file).

String conventions: Rust `&str` operations are modelled on `String.data`
(the list of characters).  Rust compares strings byte-wise on UTF-8, which
coincides with lexicographic comparison of unicode code points, i.e. with
lexicographic comparison of the character lists.  Rust `str::trim` is modelled
with `Char.isWhitespace` (space, tab, CR, LF), which agrees with Rust on all
ASCII content (the only content sysfs produces).
-/

/-- Lexicographic strict comparison of character lists (Rust byte order). -/
def charListLt : List Char → List Char → Bool
  | [], [] => false
  | [], _ :: _ => true
  | _ :: _, [] => false
  | a :: as, b :: bs => if a < b then true else if b < a then false else charListLt as bs

/-- Rust `<` on `String` (byte-wise lexicographic order). -/
def strLt (a b : String) : Bool :=
  charListLt a.data b.data

/-- Rust `<=` on `String`, as a proposition (used for sorting). -/
def strLe (a b : String) : Prop :=
  charListLt b.data a.data = false

/-- Drop leading whitespace characters. -/
def dropLeadingWs : List Char → List Char
  | [] => []
  | c :: cs => if c.isWhitespace then dropLeadingWs cs else c :: cs

/-- Rust `str::trim`: remove whitespace from both ends. -/
def strTrim (s : String) : String :=
  ⟨(dropLeadingWs (dropLeadingWs s.data.reverse).reverse)⟩

/-- Rust `str::is_empty`. -/
def strIsEmpty (s : String) : Bool :=
  s.data.isEmpty

/-- Rust `str::starts_with` for a string pattern. -/
def strStartsWith (s pat : String) : Bool :=
  pat.data.isPrefixOf s.data

/-- Substring occurrence test on character lists. -/
def listContainsSub (pat : List Char) : List Char → Bool
  | [] => pat.isEmpty
  | c :: rest => pat.isPrefixOf (c :: rest) || listContainsSub pat rest

/-- Rust `str::contains` for a string pattern. -/
def strContains (s pat : String) : Bool :=
  listContainsSub pat.data s.data

/-- Rust `str::contains` for a char pattern. -/
def strContainsChar (s : String) (c : Char) : Bool :=
  s.data.contains c

/-- Rust `str::eq_ignore_ascii_case`: equality after ASCII lowercasing. -/
def eqIgnoreAsciiCase (a b : String) : Bool :=
  a.data.map Char.toLower == b.data.map Char.toLower

/-- Rust `str::to_lowercase`, modelled character-wise (exact on ASCII input). -/
def rustToLowercase (s : String) : String :=
  ⟨s.data.map Char.toLower⟩

/-- Accumulating decimal parser: fails on the first non-digit character. -/
def digitsToNat : Nat → List Char → Option Nat
  | acc, [] => some acc
  | acc, c :: cs => if c.isDigit then digitsToNat (acc * 10 + (c.toNat - 48)) cs else none

/-- Rust unsigned integer `from_str`: optional leading `+`, then one or more
ASCII digits and nothing else. -/
def parseRustNat (s : String) : Option Nat :=
  match s.data with
  | [] => none
  | ['+'] => none
  | '+' :: cs => digitsToNat 0 cs
  | cs => digitsToNat 0 cs

/-- Rust `str::parse::<u8>()`: bounded at `u8::MAX`. -/
def parseRustU8 (s : String) : Option Nat :=
  (parseRustNat s).bind fun n => if n < 256 then some n else none

/-- Rust `str::parse::<u32>()`: bounded at `u32::MAX`. -/
def parseRustU32 (s : String) : Option Nat :=
  (parseRustNat s).bind fun n => if n < 2 ^ 32 then some n else none

/-- Rust `str::parse::<u64>()`: bounded at `u64::MAX`. -/
def parseRustU64 (s : String) : Option Nat :=
  (parseRustNat s).bind fun n => if n < 2 ^ 64 then some n else none

/-- Rust `Option::or` on two optional reads (the `.or_else` chains). -/
def orRead (a b : Option String) : Option String :=
  match a with
  | some v => some v
  | none => b

/-- One entry of `/sys/class/power_supply`: the directory-entry name and the
contents of the files inside it (`none` models a missing/unreadable file). -/
structure SysfsDevice where
  name : String
  files : String → Option String

/-- Embedding of `struct PeripheralBattery` from `src/core/peripheral.rs`. -/
structure PeripheralBattery where
  name : String
  manufacturer : String
  model_name : String
  status : String
  capacity_percent : Nat
  voltage_now : Option Nat
  serial_number : Option String
  online : Bool
  device_type : String
  scope : String
deriving DecidableEq

/-- Embedding of `PeripheralBattery::dedupe_score` (peripheral.rs lines 25-49). -/
def PeripheralBattery.dedupe_score (b : PeripheralBattery) : Nat :=
  let value : Nat := 0
  let value := if b.online then value + 16 else value
  let value := if b.voltage_now.isSome then value + 8 else value
  let value := if 0 < b.capacity_percent then value + 4 else value
  let value := if !eqIgnoreAsciiCase (strTrim b.status) "Unknown" then value + 2 else value
  let value := if eqIgnoreAsciiCase (strTrim b.status) "Charging" then value + 2 else value
  value

/-- Embedding of `PeripheralBattery::read_sysfs_string` (peripheral.rs lines
155-159): read a file of the device and trim it. -/
def PeripheralBattery.read_sysfs_string (dev : SysfsDevice) (filename : String) : Option String :=
  (dev.files filename).map strTrim

/-- Embedding of `PeripheralBattery::read_sysfs_u8` (peripheral.rs lines 162-167). -/
def PeripheralBattery.read_sysfs_u8 (dev : SysfsDevice) (filename : String) : Option Nat :=
  (PeripheralBattery.read_sysfs_string dev filename).bind parseRustU8

/-- Embedding of `PeripheralBattery::read_sysfs_u64` (peripheral.rs lines 170-175). -/
def PeripheralBattery.read_sysfs_u64 (dev : SysfsDevice) (filename : String) : Option Nat :=
  (PeripheralBattery.read_sysfs_string dev filename).bind parseRustU64

/-- Embedding of `PeripheralBattery::new` (peripheral.rs lines 60-98). -/
def PeripheralBattery.new (dev : SysfsDevice) : PeripheralBattery :=
  { name := dev.name
    manufacturer := (PeripheralBattery.read_sysfs_string dev "manufacturer").getD "Unknown"
    model_name := (PeripheralBattery.read_sysfs_string dev "model_name").getD "Unknown"
    status := (PeripheralBattery.read_sysfs_string dev "status").getD "Unknown"
    capacity_percent := (PeripheralBattery.read_sysfs_u8 dev "capacity").getD 0
    voltage_now := PeripheralBattery.read_sysfs_u64 dev "voltage_now"
    serial_number := PeripheralBattery.read_sysfs_string dev "serial_number"
    online := ((PeripheralBattery.read_sysfs_u8 dev "online").getD 0) == 1
    device_type := (PeripheralBattery.read_sysfs_string dev "type").getD "Unknown"
    scope := (PeripheralBattery.read_sysfs_string dev "scope").getD "Unknown" }

/-- Embedding of `PeripheralBattery::stable_id` (peripheral.rs lines 192-205). -/
def PeripheralBattery.stable_id (b : PeripheralBattery) : String :=
  let serial := strTrim (b.serial_number.getD "")
  if !strIsEmpty serial && serial != "Unknown" then
    "serial:" ++ serial
  else
    let manufacturer := strTrim b.manufacturer
    let model_name := strTrim b.model_name
    if manufacturer != "Unknown" && model_name != "Unknown" then
      "mm:" ++ manufacturer ++ "|" ++ model_name
    else
      "name:" ++ b.name

/-- Embedding of `PeripheralBattery::is_connected` (peripheral.rs lines 211-226). -/
def PeripheralBattery.is_connected (b : PeripheralBattery) : Bool :=
  if b.online then
    true
  else if b.voltage_now.isSome then
    true
  else if 0 < b.capacity_percent then
    true
  else
    let status := strTrim b.status
    !strIsEmpty status && !eqIgnoreAsciiCase status "Unknown"

/-- The peripheral-candidate filter of `PeripheralBattery::detect_all`
(peripheral.rs lines 116-120). -/
def isPeripheralName (name : String) : Bool :=
  strStartsWith name "hidpp_battery_" || strStartsWith name "hid-" ||
    strContains name "mouse" || strContains name "keyboard"

/-- The dedupe accumulator of `detect_all`: a `BTreeMap<String, PeripheralBattery>`
modelled as an association list strictly sorted by key. -/
abbrev DMap := List (String × PeripheralBattery)

/-- `BTreeMap::get`. -/
def dmapLookup (k : String) : DMap → Option PeripheralBattery
  | [] => none
  | (k0, v0) :: rest => if k = k0 then some v0 else dmapLookup k rest

/-- `BTreeMap::insert`: replace the binding of an existing key, otherwise
insert at the sorted position. -/
def dmapInsert (k : String) (v : PeripheralBattery) : DMap → DMap
  | [] => [(k, v)]
  | (k0, v0) :: rest =>
    if k = k0 then (k, v) :: rest
    else if strLt k k0 then (k, v) :: (k0, v0) :: rest
    else (k0, v0) :: dmapInsert k v rest

/-- One iteration of the `detect_all` loop (peripheral.rs lines 112-141):
filter on the name, build the device, and keep the better-scored candidate
per stable id (ties go to the lexicographically smaller name). -/
def detect_step (m : DMap) (e : SysfsDevice) : DMap :=
  if isPeripheralName e.name then
    let device := PeripheralBattery.new e
    let id := device.stable_id
    match dmapLookup id m with
    | none => dmapInsert id device m
    | some existing =>
      if device.dedupe_score > existing.dedupe_score ∨
          (device.dedupe_score = existing.dedupe_score ∧ strLt device.name existing.name = true) then
        dmapInsert id device m
      else
        m
  else
    m

/-- Embedding of `PeripheralBattery::detect_all` (peripheral.rs lines 107-152),
parameterised by the directory entries of `/sys/class/power_supply`. -/
def PeripheralBattery.detect_all (entries : List SysfsDevice) : List PeripheralBattery :=
  (entries.foldl detect_step []).map Prod.snd

/-- Errors of `BatteryInfo::new` (battery.rs lines 15-20).  The payload of the
IO variant is irrelevant to the embedded logic and is dropped. -/
inductive BatteryError where
  | InvalidBatteryName : String → BatteryError
  | IoError : BatteryError
deriving DecidableEq

/-- Embedding of `struct BatteryInfo` (battery.rs lines 49-70).  The three
`f32` fields are modelled with rationals. -/
structure BatteryInfo where
  name : String
  manufacturer : String
  model_name : String
  technology : String
  status : String
  capacity_percent : Nat
  capacity_level : String
  charge_now : Nat
  charge_full : Nat
  charge_full_design : Nat
  current_now : Nat
  voltage_now : Nat
  cycle_count : Nat
  health_percent : ℚ
  wear_percent : ℚ
  time_remaining_minutes : Option Nat
  charge_start_threshold : Option Nat
  charge_stop_threshold : Option Nat
  alarm : Option Nat
  service_active : Bool
deriving DecidableEq

/-- Embedding of `BatteryInfo::read_sys_file` (battery.rs lines 253-255),
parameterised by the filesystem contents. -/
def BatteryInfo.read_sys_file (fs : String → Option String) (path : String) : Option String :=
  (fs path).map strTrim

/-- Rust `as u32` on a nonnegative float value: truncate and saturate. -/
def ratToU32 (q : ℚ) : Nat :=
  min q.floor.toNat (2 ^ 32 - 1)

/-- Embedding of `BatteryInfo::new` (battery.rs lines 95-241), parameterised by
the filesystem contents and by the observed systemd service state. -/
def BatteryInfo.new (fs : String → Option String) (service_active : Bool)
    (battery_name : String) : Except BatteryError BatteryInfo :=
  if !strStartsWith battery_name "BAT" then
    .error (.InvalidBatteryName battery_name)
  else if strContains battery_name ".." || strContainsChar battery_name '/' ||
      strContainsChar battery_name '\\' then
    .error (.InvalidBatteryName
      ("Invalid battery name (potential path traversal): " ++ battery_name))
  else
    let base_path := "/sys/class/power_supply/" ++ battery_name
    let read := fun file => BatteryInfo.read_sys_file fs (base_path ++ file)
    let name := battery_name
    let manufacturer := (read "/manufacturer").getD "Inconnu"
    let model_name := (read "/model_name").getD "Inconnu"
    let technology := (read "/technology").getD "Inconnu"
    let status := (read "/status").getD "Inconnu"
    let capacity_level := (read "/capacity_level").getD "Inconnu"
    let capacity_percent := ((read "/capacity").bind parseRustU8).getD 0
    let charge_now := ((orRead (read "/charge_now") (read "/energy_now")).bind parseRustU64).getD 0
    let charge_full :=
      ((orRead (read "/charge_full") (read "/energy_full")).bind parseRustU64).getD 1
    let charge_full_design :=
      ((orRead (read "/charge_full_design") (read "/energy_full_design")).bind parseRustU64).getD 1
    let current_now := ((read "/current_now").bind parseRustU64).getD 0
    let voltage_now := ((read "/voltage_now").bind parseRustU64).getD 0
    let cycle_count := ((read "/cycle_count").bind parseRustU32).getD 0
    let health_percent : ℚ :=
      if 0 < charge_full_design then
        ((charge_full : ℚ) / (charge_full_design : ℚ)) * 100
      else
        100
    let wear_percent : ℚ := 100 - health_percent
    let time_remaining_minutes : Option Nat :=
      if 0 < current_now ∧ status = "Discharging" then
        some (ratToU32 ((charge_now : ℚ) / (current_now : ℚ) * 60))
      else if 0 < current_now ∧ status = "Charging" then
        some (ratToU32 (((charge_full - charge_now : Nat) : ℚ) / (current_now : ℚ) * 60))
      else
        none
    let charge_start_threshold :=
      (orRead (read "/charge_start_threshold") (read "/charge_control_start_threshold")).bind
        parseRustU8
    let charge_stop_threshold :=
      (orRead (read "/charge_stop_threshold") (read "/charge_control_end_threshold")).bind
        parseRustU8
    let alarm := (read "/alarm").bind parseRustU64
    .ok
      { name := name
        manufacturer := manufacturer
        model_name := model_name
        technology := technology
        status := status
        capacity_percent := capacity_percent
        capacity_level := capacity_level
        charge_now := charge_now
        charge_full := charge_full
        charge_full_design := charge_full_design
        current_now := current_now
        voltage_now := voltage_now
        cycle_count := cycle_count
        health_percent := health_percent
        wear_percent := wear_percent
        time_remaining_minutes := time_remaining_minutes
        charge_start_threshold := charge_start_threshold
        charge_stop_threshold := charge_stop_threshold
        alarm := alarm
        service_active := service_active }

/-- Rust `Result::is_ok` for the embedded `BatteryInfo::new`. -/
def isOkB (r : Except BatteryError BatteryInfo) : Bool :=
  match r with
  | .ok _ => true
  | .error _ => false

instance : DecidableRel strLe :=
  fun a b => inferInstanceAs (Decidable (charListLt b.data a.data = false))

/-- Embedding of `BatteryInfo::get_battery_list` (battery.rs lines 264-284),
parameterised by the directory-entry names of `/sys/class/power_supply`. -/
def BatteryInfo.get_battery_list (entries : List String) : List String :=
  List.insertionSort strLe (entries.filter fun name => strStartsWith name "BAT")

/-- Embedding of `enum VendorType` (vendor_detection.rs lines 4-19). -/
inductive VendorType where
  | Asus
  | Lenovo
  | Dell
  | Huawei
  | System76
  | Tuxedo
  | Samsung
  | Sony
  | Lg
  | Msi
  | Toshiba
  | Macbook
  | Generic
deriving DecidableEq

/-- Embedding of `struct ThresholdFiles` (vendor_detection.rs lines 29-33). -/
structure ThresholdFiles where
  start_paths : List String
  stop_paths : List String
deriving DecidableEq

/-- Embedding of `VendorInfo::identify_vendor` (vendor_detection.rs lines 73-135). -/
def VendorInfo.identify_vendor (manufacturer product : String) : VendorType :=
  if strContains manufacturer "asus" || strContains manufacturer "asustek" then
    .Asus
  else if strContains manufacturer "lenovo" ||
      strContains (rustToLowercase product) "thinkpad" then
    .Lenovo
  else if strContains manufacturer "dell" then
    .Dell
  else if strContains manufacturer "huawei" then
    .Huawei
  else if strContains manufacturer "system76" then
    .System76
  else if strContains manufacturer "tuxedo" then
    .Tuxedo
  else if strContains manufacturer "samsung" then
    .Samsung
  else if strContains manufacturer "sony" then
    .Sony
  else if strContains manufacturer "lg" then
    .Lg
  else if strContains manufacturer "micro-star" || strContains manufacturer "msi" then
    .Msi
  else if strContains manufacturer "toshiba" then
    .Toshiba
  else if strContains manufacturer "apple" then
    .Macbook
  else
    .Generic

/-- Embedding of `VendorInfo::get_threshold_files` (vendor_detection.rs lines
138-305): a pure table from the vendor enum to candidate sysfs paths. -/
def VendorInfo.get_threshold_files (vendor : VendorType) : ThresholdFiles :=
  let battery_base := "/sys/class/power_supply"
  match vendor with
  | .Asus =>
    { start_paths := []
      stop_paths :=
        [battery_base ++ "/BAT0/charge_control_end_threshold",
         battery_base ++ "/BAT1/charge_control_end_threshold",
         battery_base ++ "/BATC/charge_control_end_threshold",
         battery_base ++ "/BATT/charge_control_end_threshold"] }
  | .Lenovo =>
    { start_paths :=
        [battery_base ++ "/BAT0/charge_control_start_threshold",
         battery_base ++ "/BAT1/charge_control_start_threshold",
         battery_base ++ "/BAT0/charge_start_threshold",
         battery_base ++ "/BAT1/charge_start_threshold"]
      stop_paths :=
        [battery_base ++ "/BAT0/charge_control_end_threshold",
         battery_base ++ "/BAT1/charge_control_end_threshold",
         battery_base ++ "/BAT0/charge_stop_threshold",
         battery_base ++ "/BAT1/charge_stop_threshold"] }
  | .Dell =>
    { start_paths :=
        [battery_base ++ "/BAT0/charge_control_start_threshold",
         battery_base ++ "/BAT1/charge_control_start_threshold"]
      stop_paths :=
        [battery_base ++ "/BAT0/charge_control_end_threshold",
         battery_base ++ "/BAT1/charge_control_end_threshold"] }
  | .Huawei =>
    { start_paths := ["/sys/devices/platform/huawei-wmi/charge_control_thresholds"]
      stop_paths := ["/sys/devices/platform/huawei-wmi/charge_control_thresholds"] }
  | .System76 =>
    { start_paths :=
        [battery_base ++ "/BAT0/charge_control_start_threshold",
         battery_base ++ "/BAT1/charge_control_start_threshold"]
      stop_paths :=
        [battery_base ++ "/BAT0/charge_control_end_threshold",
         battery_base ++ "/BAT1/charge_control_end_threshold"] }
  | .Tuxedo =>
    { start_paths :=
        [battery_base ++ "/BAT0/charge_control_start_threshold",
         battery_base ++ "/BAT1/charge_control_start_threshold"]
      stop_paths :=
        [battery_base ++ "/BAT0/charge_control_end_threshold",
         battery_base ++ "/BAT1/charge_control_end_threshold"] }
  | .Samsung =>
    { start_paths := []
      stop_paths :=
        [battery_base ++ "/BAT0/battery_care_limit",
         battery_base ++ "/BAT1/battery_care_limit"] }
  | .Sony =>
    { start_paths := []
      stop_paths :=
        [battery_base ++ "/BAT0/battery_care_limiter",
         battery_base ++ "/BAT1/battery_care_limiter"] }
  | .Lg =>
    { start_paths := []
      stop_paths :=
        [battery_base ++ "/BAT0/charge_control_end_threshold",
         battery_base ++ "/BAT1/charge_control_end_threshold"] }
  | .Msi =>
    { start_paths :=
        [battery_base ++ "/BAT0/charge_control_start_threshold",
         battery_base ++ "/BAT1/charge_control_start_threshold"]
      stop_paths :=
        [battery_base ++ "/BAT0/charge_control_end_threshold",
         battery_base ++ "/BAT1/charge_control_end_threshold"] }
  | .Toshiba =>
    { start_paths := []
      stop_paths :=
        [battery_base ++ "/BAT0/charge_control_end_threshold",
         battery_base ++ "/BAT1/charge_control_end_threshold"] }
  | .Macbook =>
    { start_paths := [battery_base ++ "/macsmc-battery/charge_control_start_threshold"]
      stop_paths := [battery_base ++ "/macsmc-battery/charge_control_end_threshold"] }
  | .Generic =>
    { start_paths :=
        [battery_base ++ "/BAT0/charge_control_start_threshold",
         battery_base ++ "/BAT1/charge_control_start_threshold",
         battery_base ++ "/BAT0/charge_start_threshold",
         battery_base ++ "/BAT1/charge_start_threshold"]
      stop_paths :=
        [battery_base ++ "/BAT0/charge_control_end_threshold",
         battery_base ++ "/BAT1/charge_control_end_threshold",
         battery_base ++ "/BAT0/charge_stop_threshold",
         battery_base ++ "/BAT1/charge_stop_threshold",
         battery_base ++ "/BAT0/charge_end_threshold",
         battery_base ++ "/BAT1/charge_end_threshold"] }

/-- Embedding of `struct SystemThresholdWriter` (traits.rs lines 64-66). -/
structure SystemThresholdWriter where
  supports_start : Bool
deriving DecidableEq

/-- Embedding of `SystemThresholdWriter::apply_thresholds` (traits.rs lines
77-95): pure validation, no state is touched. -/
def SystemThresholdWriter.apply_thresholds (_w : SystemThresholdWriter) (_battery : String)
    (start : Option Nat) (stop : Nat) : Except String Unit :=
  if stop > 100 then
    .error "Seuil d'arrêt invalide (> 100)"
  else
    match start with
    | some s =>
      if s > 100 then
        .error "Seuil de démarrage invalide (> 100)"
      else if s ≥ stop then
        .error "Le seuil de démarrage doit être inférieur au seuil d'arrêt"
      else
        .ok ()
    | none => .ok ()

/-- Rust `Result::is_ok` for the embedded `apply_thresholds`. -/
def isOkT (r : Except String Unit) : Bool :=
  match r with
  | .ok _ => true
  | .error _ => false

/-- The accumulator invariant of the `BTreeMap`: keys strictly increasing. -/
def dmapSorted (m : DMap) : Prop :=
  m.Pairwise fun a b => strLt a.1 b.1 = true

/-- Candidate `d` is at least as good as candidate `b` for de-duplication:
strictly higher score, or equal score and a name that is not larger. -/
def Dominates (d b : PeripheralBattery) : Prop :=
  b.dedupe_score < d.dedupe_score ∨
    (b.dedupe_score = d.dedupe_score ∧ strLt b.name d.name = false)

/-- The replace condition of the `detect_all` loop, as written in the source. -/
def StrictBetter (device existing : PeripheralBattery) : Prop :=
  device.dedupe_score > existing.dedupe_score ∨
    (device.dedupe_score = existing.dedupe_score ∧ strLt device.name existing.name = true)

/-- Loop invariant of `detect_all`: after processing the entries of
`processed`, the accumulator is a sorted map, every binding is keyed by the
stable id of its value, every value was built from a processed matched entry,
every value dominates all processed matched entries of its group, and every
processed matched entry has a binding for its group. -/
structure DetectInv (processed : List SysfsDevice) (m : DMap) : Prop where
  sorted : dmapSorted m
  keyed : ∀ kv ∈ m, (kv.2).stable_id = kv.1
  srcd : ∀ kv ∈ m, ∃ e ∈ processed, isPeripheralName e.name = true ∧
    PeripheralBattery.new e = kv.2
  best : ∀ kv ∈ m, ∀ e ∈ processed, isPeripheralName e.name = true →
    (PeripheralBattery.new e).stable_id = kv.1 → Dominates kv.2 (PeripheralBattery.new e)
  covered : ∀ e ∈ processed, isPeripheralName e.name = true →
    ∃ v, dmapLookup (PeripheralBattery.new e).stable_id m = some v

/-- The five-term additive dedupe score exactly as the specification words it
(claim-side restatement, to be compared with the embedded function). -/
def dedupe_score_spec (b : PeripheralBattery) : Nat :=
  (if b.online then 16 else 0) +
  (if b.voltage_now.isSome then 8 else 0) +
  (if 0 < b.capacity_percent then 4 else 0) +
  (if eqIgnoreAsciiCase (strTrim b.status) "Unknown" = false then 2 else 0) +
  (if eqIgnoreAsciiCase (strTrim b.status) "Charging" = true then 2 else 0)

/-- Concrete sysfs entry: a HID++ device exposing only a serial number. -/
def exampleEntrySerialOnly : SysfsDevice :=
  { name := "hidpp_battery_0"
    files := fun f => if f = "serial_number" then some "ab-12" else none }

/-- Concrete sysfs entry: the same physical device (same serial), but online. -/
def exampleEntryOnline : SysfsDevice :=
  { name := "hidpp_battery_1"
    files := fun f =>
      if f = "serial_number" then some "ab-12"
      else if f = "online" then some "1"
      else none }

/-- Concrete sysfs entry with no readable files at all. -/
def exampleEntryNoFiles : SysfsDevice :=
  { name := "hid-aa.bb-battery"
    files := fun _ => none }

/-- Concrete sysfs entry whose name starts with `BAT` yet contains `mouse`. -/
def exampleEntryBatMouse : SysfsDevice :=
  { name := "BATmouse"
    files := fun _ => none }

/-- Concrete peripheral whose trimmed status is empty and all else default. -/
def exampleEmptyStatusDevice : PeripheralBattery :=
  { name := "dev"
    manufacturer := "Unknown"
    model_name := "Unknown"
    status := ""
    capacity_percent := 0
    voltage_now := none
    serial_number := none
    online := false
    device_type := "Unknown"
    scope := "Unknown" }

/-- Concrete peripheral that is online. -/
def exampleOnlineDevice : PeripheralBattery :=
  { name := "hidpp_battery_2"
    manufacturer := "Logitech"
    model_name := "G Pro"
    status := "Discharging"
    capacity_percent := 85
    voltage_now := some 4229000
    serial_number := some "e9-97"
    online := true
    device_type := "Battery"
    scope := "Device" }

/-- Concrete peripheral that is charging. -/
def exampleChargingDevice : PeripheralBattery :=
  { name := "hidpp_battery_3"
    manufacturer := "Logitech"
    model_name := "MX"
    status := "Charging"
    capacity_percent := 40
    voltage_now := none
    serial_number := none
    online := false
    device_type := "Battery"
    scope := "Device" }

theorem strEqOfDataEq {a b : String} (h : a.data = b.data) : a = b := by
  cases a
  cases b
  simp only at h
  rw [h]

theorem charListLt_irrefl (l : List Char) : charListLt l l = false := by
  induction l with
  | nil => rfl
  | cons c cs ih => simp [charListLt, ih]

theorem charListLt_trans {a : List Char} : ∀ {b c : List Char}, charListLt a b = true →
    charListLt b c = true → charListLt a c = true := by
  induction a with
  | nil =>
    intro b c h1 h2
    cases c with
    | nil =>
      cases b with
      | nil => simp [charListLt] at h1
      | cons y ys => simp [charListLt] at h2
    | cons z zs => rfl
  | cons x xs ih =>
    intro b c h1 h2
    cases b with
    | nil => simp [charListLt] at h1
    | cons y ys =>
      cases c with
      | nil => simp [charListLt] at h2
      | cons z zs =>
        simp only [charListLt] at h1 h2 ⊢
        rcases lt_trichotomy x y with hxy | hxy | hxy
        · rcases lt_trichotomy y z with hyz | hyz | hyz
          · rw [if_pos (lt_trans hxy hyz)]
          · subst hyz
            rw [if_pos hxy]
          · rw [if_neg (lt_asymm hyz), if_pos hyz] at h2
            exact absurd h2 (by simp)
        · subst hxy
          rw [if_neg (lt_irrefl x), if_neg (lt_irrefl x)] at h1
          rcases lt_trichotomy x z with hxz | hxz | hxz
          · rw [if_pos hxz]
          · subst hxz
            rw [if_neg (lt_irrefl x), if_neg (lt_irrefl x)] at h2 ⊢
            exact ih h1 h2
          · rw [if_neg (lt_asymm hxz), if_pos hxz] at h2
            exact absurd h2 (by simp)
        · rw [if_neg (lt_asymm hxy), if_pos hxy] at h1
          exact absurd h1 (by simp)

theorem charListLt_asymm {a b : List Char} (h : charListLt a b = true) :
    charListLt b a = false := by
  by_contra hba
  rw [Bool.not_eq_false] at hba
  have := charListLt_trans h hba
  rw [charListLt_irrefl] at this
  exact absurd this (by simp)

theorem charListLt_connex {a : List Char} : ∀ {b : List Char}, charListLt a b = false →
    charListLt b a = false → a = b := by
  induction a with
  | nil =>
    intro b h1 _
    cases b with
    | nil => rfl
    | cons y ys => simp [charListLt] at h1
  | cons x xs ih =>
    intro b h1 h2
    cases b with
    | nil => simp [charListLt] at h2
    | cons y ys =>
      simp only [charListLt] at h1 h2
      rcases lt_trichotomy x y with hxy | hxy | hxy
      · rw [if_pos hxy] at h1
        exact absurd h1 (by simp)
      · subst hxy
        rw [if_neg (lt_irrefl x), if_neg (lt_irrefl x)] at h1 h2
        rw [ih h1 h2]
      · rw [if_pos hxy] at h2
        exact absurd h2 (by simp)

theorem charListLt_notLt_trans {a b c : List Char} (h1 : charListLt b a = false)
    (h2 : charListLt c b = false) : charListLt c a = false := by
  by_contra hca
  rw [Bool.not_eq_false] at hca
  cases hbc : charListLt b c with
  | true =>
    have := charListLt_trans hbc hca
    rw [h1] at this
    exact absurd this (by simp)
  | false =>
    have := charListLt_connex hbc h2
    subst this
    rw [h1] at hca
    exact absurd hca (by simp)

theorem strLt_irrefl (s : String) : strLt s s = false :=
  charListLt_irrefl s.data

theorem strLt_trans {a b c : String} (h1 : strLt a b = true) (h2 : strLt b c = true) :
    strLt a c = true :=
  charListLt_trans h1 h2

theorem strLt_asymm {a b : String} (h : strLt a b = true) : strLt b a = false :=
  charListLt_asymm h

theorem strLt_connex {a b : String} (h1 : strLt a b = false) (h2 : strLt b a = false) :
    a = b :=
  strEqOfDataEq (charListLt_connex h1 h2)

instance : IsTotal String strLe :=
  ⟨fun a b => by
    unfold strLe
    cases h : charListLt b.data a.data with
    | false => exact Or.inl rfl
    | true => exact Or.inr (charListLt_asymm h)⟩

instance : IsTrans String strLe :=
  ⟨fun _ _ _ h1 h2 => charListLt_notLt_trans h1 h2⟩


theorem dmapInsert_head_eq (k : String) (v v0 : PeripheralBattery) (tl : DMap) :
    dmapInsert k v ((k, v0) :: tl) = (k, v) :: tl := by
  simp [dmapInsert]

theorem dmapInsert_head_lt {k k0 : String} (v : PeripheralBattery) {v0 : PeripheralBattery}
    {tl : DMap} (hk : k ≠ k0) (hlt : strLt k k0 = true) :
    dmapInsert k v ((k0, v0) :: tl) = (k, v) :: (k0, v0) :: tl := by
  simp [dmapInsert, hk, hlt]

theorem dmapInsert_head_gt {k k0 : String} (v : PeripheralBattery) {v0 : PeripheralBattery}
    {tl : DMap} (hk : k ≠ k0) (hlt : ¬strLt k k0 = true) :
    dmapInsert k v ((k0, v0) :: tl) = (k0, v0) :: dmapInsert k v tl := by
  simp [dmapInsert, hk, hlt]

theorem mem_dmapInsert {k : String} {v : PeripheralBattery} {x : String × PeripheralBattery} :
    ∀ {m : DMap}, dmapSorted m →
    (x ∈ dmapInsert k v m ↔ x = (k, v) ∨ (x ∈ m ∧ x.1 ≠ k)) := by
  intro m
  induction m with
  | nil =>
    intro _
    simp [dmapInsert]
  | cons hd tl ih =>
    intro hs
    obtain ⟨k0, v0⟩ := hd
    rw [dmapSorted, List.pairwise_cons] at hs
    obtain ⟨hhd, htl⟩ := hs
    by_cases hk : k = k0
    · subst hk
      rw [dmapInsert_head_eq, List.mem_cons, List.mem_cons]
      constructor
      · rintro (rfl | hx)
        · exact Or.inl rfl
        · refine Or.inr ⟨Or.inr hx, ?_⟩
          intro h1
          have hlt := hhd x hx
          rw [h1, strLt_irrefl] at hlt
          exact absurd hlt (by simp)
      · rintro (rfl | ⟨hx, hne⟩)
        · exact Or.inl rfl
        · rcases hx with rfl | hx
          · exact absurd rfl hne
          · exact Or.inr hx
    · by_cases hlt : strLt k k0 = true
      · rw [dmapInsert_head_lt v hk hlt]
        simp only [List.mem_cons]
        constructor
        · rintro (rfl | rfl | hx)
          · exact Or.inl rfl
          · exact Or.inr ⟨Or.inl rfl, fun h1 => hk h1.symm⟩
          · refine Or.inr ⟨Or.inr hx, ?_⟩
            intro h1
            have h2 := hhd x hx
            rw [h1] at h2
            rw [strLt_asymm h2] at hlt
            exact absurd hlt (by simp)
        · rintro (rfl | ⟨rfl | hx, _⟩)
          · exact Or.inl rfl
          · exact Or.inr (Or.inl rfl)
          · exact Or.inr (Or.inr hx)
      · rw [dmapInsert_head_gt v hk hlt, List.mem_cons, List.mem_cons, ih htl]
        constructor
        · rintro (rfl | rfl | ⟨hx, hne⟩)
          · exact Or.inr ⟨Or.inl rfl, fun h1 => hk h1.symm⟩
          · exact Or.inl rfl
          · exact Or.inr ⟨Or.inr hx, hne⟩
        · rintro (rfl | ⟨rfl | hx, hne⟩)
          · exact Or.inr (Or.inl rfl)
          · exact Or.inl rfl
          · exact Or.inr (Or.inr ⟨hx, hne⟩)

theorem dmapSorted_insert (k : String) (v : PeripheralBattery) :
    ∀ {m : DMap}, dmapSorted m → dmapSorted (dmapInsert k v m) := by
  intro m
  induction m with
  | nil =>
    intro _
    simp [dmapInsert, dmapSorted]
  | cons hd tl ih =>
    intro hs
    obtain ⟨k0, v0⟩ := hd
    rw [dmapSorted, List.pairwise_cons] at hs
    obtain ⟨hhd, htl⟩ := hs
    by_cases hk : k = k0
    · subst hk
      rw [dmapInsert_head_eq, dmapSorted, List.pairwise_cons]
      exact ⟨hhd, htl⟩
    · by_cases hlt : strLt k k0 = true
      · rw [dmapInsert_head_lt v hk hlt, dmapSorted, List.pairwise_cons, List.pairwise_cons]
        refine ⟨?_, hhd, htl⟩
        intro y hy
        rcases List.mem_cons.mp hy with rfl | hy
        · exact hlt
        · exact strLt_trans hlt (hhd y hy)
      · rw [dmapInsert_head_gt v hk hlt, dmapSorted, List.pairwise_cons]
        have hkk0 : strLt k k0 = false := by
          cases h : strLt k k0
          · rfl
          · exact absurd h hlt
        refine ⟨?_, ih htl⟩
        intro y hy
        rcases (mem_dmapInsert htl).mp hy with rfl | ⟨hy, _⟩
        · cases h0 : strLt k0 k with
          | true => rfl
          | false => exact absurd (strLt_connex h0 hkk0).symm hk
        · exact hhd y hy

theorem dmapLookup_none_iff {k : String} :
    ∀ {m : DMap}, (dmapLookup k m = none ↔ ∀ v, (k, v) ∉ m) := by
  intro m
  induction m with
  | nil => simp [dmapLookup]
  | cons hd tl ih =>
    obtain ⟨k0, v0⟩ := hd
    by_cases hk : k = k0
    · subst hk
      have heq : dmapLookup k ((k, v0) :: tl) = some v0 := by simp [dmapLookup]
      rw [heq]
      constructor
      · intro h
        exact absurd h (by simp)
      · intro hall
        exact absurd (List.mem_cons_self (k, v0) tl) (hall v0)
    · have heq : dmapLookup k ((k0, v0) :: tl) = dmapLookup k tl := by simp [dmapLookup, hk]
      rw [heq, ih]
      constructor
      · intro h v hv
        rcases List.mem_cons.mp hv with h1 | h1
        · exact hk (congrArg Prod.fst h1)
        · exact h v h1
      · intro h v hv
        exact h v (List.mem_cons_of_mem _ hv)

theorem dmapMem_lookup {k : String} {v : PeripheralBattery} :
    ∀ {m : DMap}, dmapSorted m → (k, v) ∈ m → dmapLookup k m = some v := by
  intro m
  induction m with
  | nil =>
    intro _ h
    simp at h
  | cons hd tl ih =>
    intro hs hmem
    obtain ⟨k0, v0⟩ := hd
    rw [dmapSorted, List.pairwise_cons] at hs
    obtain ⟨hhd, htl⟩ := hs
    rcases List.mem_cons.mp hmem with heq | hmem2
    · have h1 : k = k0 := congrArg Prod.fst heq
      have h2 : v = v0 := congrArg Prod.snd heq
      subst h1
      subst h2
      simp [dmapLookup]
    · have hne : k ≠ k0 := by
        intro h1
        subst h1
        have hx := hhd (k, v) hmem2
        rw [strLt_irrefl] at hx
        exact absurd hx (by simp)
      have heq : dmapLookup k ((k0, v0) :: tl) = dmapLookup k tl := by simp [dmapLookup, hne]
      rw [heq]
      exact ih htl hmem2

theorem dmapLookup_some_mem {k : String} {v : PeripheralBattery} :
    ∀ {m : DMap}, dmapLookup k m = some v → (k, v) ∈ m := by
  intro m
  induction m with
  | nil =>
    intro h
    simp [dmapLookup] at h
  | cons hd tl ih =>
    intro h
    obtain ⟨k0, v0⟩ := hd
    by_cases hk : k = k0
    · subst hk
      have heq : dmapLookup k ((k, v0) :: tl) = some v0 := by simp [dmapLookup]
      rw [heq] at h
      obtain rfl := Option.some.inj h
      exact List.mem_cons_self _ _
    · have heq : dmapLookup k ((k0, v0) :: tl) = dmapLookup k tl := by simp [dmapLookup, hk]
      rw [heq] at h
      exact List.mem_cons_of_mem _ (ih h)

theorem strLt_notLt_trans {a b c : String} (h1 : strLt b a = false) (h2 : strLt c b = false) :
    strLt c a = false :=
  charListLt_notLt_trans h1 h2

theorem dominates_refl (b : PeripheralBattery) : Dominates b b :=
  Or.inr ⟨rfl, strLt_irrefl b.name⟩

theorem dominates_trans {a b c : PeripheralBattery} (h1 : Dominates a b) (h2 : Dominates b c) :
    Dominates a c := by
  rcases h1 with h1 | ⟨h1s, h1n⟩
  · rcases h2 with h2 | ⟨h2s, h2n⟩
    · exact Or.inl (lt_trans h2 h1)
    · exact Or.inl (lt_of_eq_of_lt h2s h1)
  · rcases h2 with h2 | ⟨h2s, h2n⟩
    · exact Or.inl (lt_of_lt_of_eq h2 h1s)
    · exact Or.inr ⟨h2s.trans h1s, strLt_notLt_trans h1n h2n⟩

theorem strictBetter_dominates {a b : PeripheralBattery} (h : StrictBetter a b) :
    Dominates a b := by
  rcases h with h | ⟨hs, hn⟩
  · exact Or.inl h
  · exact Or.inr ⟨hs.symm, strLt_asymm hn⟩

theorem not_strictBetter_dominates {device existing : PeripheralBattery}
    (h : ¬StrictBetter device existing) : Dominates existing device := by
  rw [StrictBetter, not_or] at h
  obtain ⟨h1, h2⟩ := h
  rcases Nat.lt_trichotomy device.dedupe_score existing.dedupe_score with hlt | heq | hgt
  · exact Or.inl hlt
  · refine Or.inr ⟨heq, ?_⟩
    cases hn : strLt device.name existing.name with
    | false => rfl
    | true => exact absurd ⟨heq, hn⟩ h2
  · exact absurd hgt h1

theorem detect_step_inv {processed : List SysfsDevice} {m : DMap} (h : DetectInv processed m)
    (e : SysfsDevice) : DetectInv (processed ++ [e]) (detect_step m e) := by
  by_cases hp : isPeripheralName e.name = true
  · cases hl : dmapLookup (PeripheralBattery.new e).stable_id m with
    | none =>
      have hstep : detect_step m e =
          dmapInsert (PeripheralBattery.new e).stable_id (PeripheralBattery.new e) m := by
        simp [detect_step, hp, hl]
      rw [hstep]
      refine ⟨dmapSorted_insert _ _ h.sorted, ?_, ?_, ?_, ?_⟩
      · intro kv hkv
        rcases (mem_dmapInsert h.sorted).mp hkv with heq | ⟨hkv', _⟩
        · have hk1 : kv.1 = (PeripheralBattery.new e).stable_id := congrArg Prod.fst heq
          have hk2 : kv.2 = PeripheralBattery.new e := congrArg Prod.snd heq
          rw [hk1, hk2]
        · exact h.keyed kv hkv'
      · intro kv hkv
        rcases (mem_dmapInsert h.sorted).mp hkv with heq | ⟨hkv', _⟩
        · have hk2 : kv.2 = PeripheralBattery.new e := congrArg Prod.snd heq
          exact ⟨e, List.mem_append_right _ (List.mem_singleton.mpr rfl), hp, hk2.symm⟩
        · obtain ⟨e', he', hpe', hne'⟩ := h.srcd kv hkv'
          exact ⟨e', List.mem_append_left _ he', hpe', hne'⟩
      · intro kv hkv e' he' hpe' hid
        rcases (mem_dmapInsert h.sorted).mp hkv with heq | ⟨hkv', hne⟩
        · have hk1 : kv.1 = (PeripheralBattery.new e).stable_id := congrArg Prod.fst heq
          have hk2 : kv.2 = PeripheralBattery.new e := congrArg Prod.snd heq
          rcases List.mem_append.mp he' with he' | he'
          · obtain ⟨v, hv⟩ := h.covered e' he' hpe'
            rw [hid, hk1, hl] at hv
            exact absurd hv (by simp)
          · obtain rfl := List.mem_singleton.mp he'
            rw [hk2]
            exact dominates_refl _
        · rcases List.mem_append.mp he' with he' | he'
          · exact h.best kv hkv' e' he' hpe' hid
          · obtain rfl := List.mem_singleton.mp he'
            exact absurd hid.symm hne
      · intro e' he' hpe'
        rcases List.mem_append.mp he' with he' | he'
        · obtain ⟨v, hv⟩ := h.covered e' he' hpe'
          have hmemv := dmapLookup_some_mem hv
          have hkne : (PeripheralBattery.new e').stable_id ≠
              (PeripheralBattery.new e).stable_id := by
            intro hEq
            rw [hEq, hl] at hv
            exact absurd hv (by simp)
          refine ⟨v, dmapMem_lookup (dmapSorted_insert _ _ h.sorted) ?_⟩
          exact (mem_dmapInsert h.sorted).mpr (Or.inr ⟨hmemv, hkne⟩)
        · obtain rfl := List.mem_singleton.mp he'
          refine ⟨PeripheralBattery.new e', dmapMem_lookup (dmapSorted_insert _ _ h.sorted) ?_⟩
          exact (mem_dmapInsert h.sorted).mpr (Or.inl rfl)
    | some existing =>
      have hmemex : ((PeripheralBattery.new e).stable_id, existing) ∈ m :=
        dmapLookup_some_mem hl
      by_cases hsb : (PeripheralBattery.new e).dedupe_score > existing.dedupe_score ∨
          ((PeripheralBattery.new e).dedupe_score = existing.dedupe_score ∧
            strLt (PeripheralBattery.new e).name existing.name = true)
      · have hstep : detect_step m e =
            dmapInsert (PeripheralBattery.new e).stable_id (PeripheralBattery.new e) m := by
          simp [detect_step, hp, hl, hsb]
        rw [hstep]
        have hdom : Dominates (PeripheralBattery.new e) existing := strictBetter_dominates hsb
        refine ⟨dmapSorted_insert _ _ h.sorted, ?_, ?_, ?_, ?_⟩
        · intro kv hkv
          rcases (mem_dmapInsert h.sorted).mp hkv with heq | ⟨hkv', _⟩
          · have hk1 : kv.1 = (PeripheralBattery.new e).stable_id := congrArg Prod.fst heq
            have hk2 : kv.2 = PeripheralBattery.new e := congrArg Prod.snd heq
            rw [hk1, hk2]
          · exact h.keyed kv hkv'
        · intro kv hkv
          rcases (mem_dmapInsert h.sorted).mp hkv with heq | ⟨hkv', _⟩
          · have hk2 : kv.2 = PeripheralBattery.new e := congrArg Prod.snd heq
            exact ⟨e, List.mem_append_right _ (List.mem_singleton.mpr rfl), hp, hk2.symm⟩
          · obtain ⟨e', he', hpe', hne'⟩ := h.srcd kv hkv'
            exact ⟨e', List.mem_append_left _ he', hpe', hne'⟩
        · intro kv hkv e' he' hpe' hid
          rcases (mem_dmapInsert h.sorted).mp hkv with heq | ⟨hkv', hne⟩
          · have hk1 : kv.1 = (PeripheralBattery.new e).stable_id := congrArg Prod.fst heq
            have hk2 : kv.2 = PeripheralBattery.new e := congrArg Prod.snd heq
            rcases List.mem_append.mp he' with he' | he'
            · have hid2 : (PeripheralBattery.new e').stable_id =
                  ((PeripheralBattery.new e).stable_id, existing).1 := by
                rw [hid, hk1]
              have hex := h.best _ hmemex e' he' hpe' hid2
              rw [hk2]
              exact dominates_trans hdom hex
            · obtain rfl := List.mem_singleton.mp he'
              rw [hk2]
              exact dominates_refl _
          · rcases List.mem_append.mp he' with he' | he'
            · exact h.best kv hkv' e' he' hpe' hid
            · obtain rfl := List.mem_singleton.mp he'
              exact absurd hid.symm hne
        · intro e' he' hpe'
          rcases List.mem_append.mp he' with he' | he'
          · by_cases hkne : (PeripheralBattery.new e').stable_id =
                (PeripheralBattery.new e).stable_id
            · refine ⟨PeripheralBattery.new e, ?_⟩
              rw [hkne]
              exact dmapMem_lookup (dmapSorted_insert _ _ h.sorted)
                ((mem_dmapInsert h.sorted).mpr (Or.inl rfl))
            · obtain ⟨v, hv⟩ := h.covered e' he' hpe'
              refine ⟨v, dmapMem_lookup (dmapSorted_insert _ _ h.sorted) ?_⟩
              exact (mem_dmapInsert h.sorted).mpr (Or.inr ⟨dmapLookup_some_mem hv, hkne⟩)
          · obtain rfl := List.mem_singleton.mp he'
            refine ⟨PeripheralBattery.new e', dmapMem_lookup (dmapSorted_insert _ _ h.sorted) ?_⟩
            exact (mem_dmapInsert h.sorted).mpr (Or.inl rfl)
      · have hstep : detect_step m e = m := by
          simp [detect_step, hp, hl, hsb]
        rw [hstep]
        refine ⟨h.sorted, h.keyed, ?_, ?_, ?_⟩
        · intro kv hkv
          obtain ⟨e', he', hpe', hne'⟩ := h.srcd kv hkv
          exact ⟨e', List.mem_append_left _ he', hpe', hne'⟩
        · intro kv hkv e' he' hpe' hid
          rcases List.mem_append.mp he' with he' | he'
          · exact h.best kv hkv e' he' hpe' hid
          · obtain rfl := List.mem_singleton.mp he'
            have hlv : dmapLookup kv.1 m = some kv.2 :=
              dmapMem_lookup h.sorted (show (kv.1, kv.2) ∈ m from hkv)
            rw [← hid] at hlv
            rw [hl] at hlv
            obtain rfl := (Option.some.inj hlv)
            exact not_strictBetter_dominates hsb
        · intro e' he' hpe'
          rcases List.mem_append.mp he' with he' | he'
          · exact h.covered e' he' hpe'
          · obtain rfl := List.mem_singleton.mp he'
            exact ⟨existing, hl⟩
  · have hstep : detect_step m e = m := by simp [detect_step, hp]
    rw [hstep]
    refine ⟨h.sorted, h.keyed, ?_, ?_, ?_⟩
    · intro kv hkv
      obtain ⟨e', he', hpe', hne'⟩ := h.srcd kv hkv
      exact ⟨e', List.mem_append_left _ he', hpe', hne'⟩
    · intro kv hkv e' he' hpe' hid
      rcases List.mem_append.mp he' with he' | he'
      · exact h.best kv hkv e' he' hpe' hid
      · obtain rfl := List.mem_singleton.mp he'
        exact absurd hpe' hp
    · intro e' he' hpe'
      rcases List.mem_append.mp he' with he' | he'
      · exact h.covered e' he' hpe'
      · obtain rfl := List.mem_singleton.mp he'
        exact absurd hpe' hp

theorem detect_foldl_inv (rest : List SysfsDevice) :
    ∀ (processed : List SysfsDevice) (m : DMap), DetectInv processed m →
      DetectInv (processed ++ rest) (rest.foldl detect_step m) := by
  induction rest with
  | nil =>
    intro processed m h
    simpa using h
  | cons e rest ih =>
    intro processed m h
    have h2 := ih (processed ++ [e]) (detect_step m e) (detect_step_inv h e)
    rw [List.append_assoc] at h2
    simpa using h2

theorem detectInv_entries (entries : List SysfsDevice) :
    DetectInv entries (entries.foldl detect_step []) := by
  have h0 : DetectInv [] [] := by
    refine ⟨?_, ?_, ?_, ?_, ?_⟩ <;> simp [dmapSorted]
  simpa using detect_foldl_inv entries [] [] h0

/-- C1: every device kept by `detect_all` is the per-stable-id argmax of the
matched entries: it is built from some matched entry, and for every matched
entry of the same stable-id group it has a strictly higher dedupe score, or an
equal score and a device name that is lexicographically not larger. -/
theorem C1_detect_all_keeps_argmax (entries : List SysfsDevice) (d : PeripheralBattery)
    (hd : d ∈ PeripheralBattery.detect_all entries) :
    (∃ e ∈ entries, isPeripheralName e.name = true ∧ PeripheralBattery.new e = d) ∧
    (∀ e ∈ entries, isPeripheralName e.name = true →
      (PeripheralBattery.new e).stable_id = d.stable_id →
      ((PeripheralBattery.new e).dedupe_score < d.dedupe_score ∨
        ((PeripheralBattery.new e).dedupe_score = d.dedupe_score ∧
          strLt (PeripheralBattery.new e).name d.name = false))) := by
  rw [PeripheralBattery.detect_all] at hd
  obtain ⟨kv, hkv, rfl⟩ := List.mem_map.mp hd
  have hinv := detectInv_entries entries
  constructor
  · exact hinv.srcd kv hkv
  · intro e he hpe hid
    have hkey := hinv.keyed kv hkv
    exact hinv.best kv hkv e he hpe (by rw [hid, hkey])

/-- Witness for C1 at a concrete two-entry directory in which both entries
report the same serial number and the second one is online. -/
theorem C1_witness :
    (∃ e ∈ [exampleEntrySerialOnly, exampleEntryOnline], isPeripheralName e.name = true ∧
      PeripheralBattery.new e = PeripheralBattery.new exampleEntryOnline) ∧
    (∀ e ∈ [exampleEntrySerialOnly, exampleEntryOnline], isPeripheralName e.name = true →
      (PeripheralBattery.new e).stable_id = (PeripheralBattery.new exampleEntryOnline).stable_id →
      ((PeripheralBattery.new e).dedupe_score <
          (PeripheralBattery.new exampleEntryOnline).dedupe_score ∨
        ((PeripheralBattery.new e).dedupe_score =
            (PeripheralBattery.new exampleEntryOnline).dedupe_score ∧
          strLt (PeripheralBattery.new e).name
            (PeripheralBattery.new exampleEntryOnline).name = false))) :=
  C1_detect_all_keeps_argmax [exampleEntrySerialOnly, exampleEntryOnline]
    (PeripheralBattery.new exampleEntryOnline) (by decide)

theorem stable_id_filter_length_le_one {l : List PeripheralBattery}
    (h : l.Pairwise fun a b => a.stable_id ≠ b.stable_id) (id0 : String) :
    (l.filter fun d => d.stable_id == id0).length ≤ 1 := by
  induction l with
  | nil => simp
  | cons x xs ih =>
    rw [List.pairwise_cons] at h
    obtain ⟨hx, hxs⟩ := h
    by_cases hxid : (x.stable_id == id0) = true
    · have hempty : xs.filter (fun d => d.stable_id == id0) = [] := by
        rw [List.filter_eq_nil_iff]
        intro d hd
        rw [beq_iff_eq] at hxid ⊢
        intro hdeq
        exact hx d hd (hxid.trans hdeq.symm)
      rw [List.filter_cons, if_pos hxid, hempty]
      simp
    · rw [List.filter_cons, if_neg hxid]
      exact ih hxs

/-- C3: the vector returned by `detect_all` never contains two devices with
the same stable id, so at most one returned device carries any given id; in
particular two entries reporting the same usable serial number can never both
appear. -/
theorem C3_detect_all_unique_stable_id (entries : List SysfsDevice) :
    (PeripheralBattery.detect_all entries).Pairwise
      (fun a b => a.stable_id ≠ b.stable_id) ∧
    ∀ id0 : String,
      ((PeripheralBattery.detect_all entries).filter
        (fun d => d.stable_id == id0)).length ≤ 1 := by
  have hinv := detectInv_entries entries
  have hpair : (PeripheralBattery.detect_all entries).Pairwise
      fun a b => a.stable_id ≠ b.stable_id := by
    rw [PeripheralBattery.detect_all, List.pairwise_map]
    have hs := hinv.sorted
    rw [dmapSorted] at hs
    refine hs.imp_of_mem ?_
    intro a b ha hb hlt heq
    rw [hinv.keyed a ha, hinv.keyed b hb] at heq
    rw [heq, strLt_irrefl] at hlt
    exact absurd hlt (by simp)
  exact ⟨hpair, fun id0 => stable_id_filter_length_le_one hpair id0⟩

theorem isPrefixOf_cons_false {a b : Char} (h : (a == b) = false) (as bs : List Char) :
    List.isPrefixOf (a :: as) (b :: bs) = false := by
  simp [List.isPrefixOf, h]

theorem bat_name_not_hid {s : String} (h : strStartsWith s "BAT" = true) :
    strStartsWith s "hidpp_battery_" = false ∧ strStartsWith s "hid-" = false := by
  rw [strStartsWith, List.isPrefixOf_iff_prefix] at h
  obtain ⟨t, ht⟩ := h
  have hs : s.data = 'B' :: ('A' :: 'T' :: t) := by
    rw [← ht]
    rfl
  constructor
  · rw [strStartsWith, hs]
    have hp : "hidpp_battery_".data = 'h' :: "idpp_battery_".data := by decide
    rw [hp]
    exact isPrefixOf_cons_false (by decide) _ _
  · rw [strStartsWith, hs]
    have hp : "hid-".data = 'h' :: "id-".data := by decide
    rw [hp]
    exact isPrefixOf_cons_false (by decide) _ _

/-- C7 (amended): `detect_all` includes exactly the entries matching the name
filter: every result comes from a matched entry, every matched entry (in
particular every `hidpp_battery_*` device) is represented by a result of its
stable-id group, and an entry named `BAT*` can only appear when its name also
contains `mouse` or `keyboard` (so ordinary battery names such as `BAT0` are
never included). -/
theorem C7_detect_all_filter (entries : List SysfsDevice) :
    (∀ d ∈ PeripheralBattery.detect_all entries, ∃ e ∈ entries,
      (strStartsWith e.name "hidpp_battery_" || strStartsWith e.name "hid-" ||
        strContains e.name "mouse" || strContains e.name "keyboard") = true ∧
      PeripheralBattery.new e = d) ∧
    (∀ e ∈ entries,
      (strStartsWith e.name "hidpp_battery_" || strStartsWith e.name "hid-" ||
        strContains e.name "mouse" || strContains e.name "keyboard") = true →
      ∃ d ∈ PeripheralBattery.detect_all entries,
        d.stable_id = (PeripheralBattery.new e).stable_id) ∧
    (∀ d ∈ PeripheralBattery.detect_all entries, strStartsWith d.name "BAT" = true →
      (strContains d.name "mouse" || strContains d.name "keyboard") = true) := by
  have hinv := detectInv_entries entries
  refine ⟨?_, ?_, ?_⟩
  · intro d hd
    rw [PeripheralBattery.detect_all] at hd
    obtain ⟨kv, hkv, rfl⟩ := List.mem_map.mp hd
    exact hinv.srcd kv hkv
  · intro e he hpe
    obtain ⟨v, hv⟩ := hinv.covered e he hpe
    have hmem := dmapLookup_some_mem hv
    refine ⟨v, ?_, ?_⟩
    · rw [PeripheralBattery.detect_all]
      exact List.mem_map.mpr ⟨((PeripheralBattery.new e).stable_id, v), hmem, rfl⟩
    · exact hinv.keyed _ hmem
  · intro d hd hbat
    rw [PeripheralBattery.detect_all] at hd
    obtain ⟨kv, hkv, rfl⟩ := List.mem_map.mp hd
    obtain ⟨e, _, hpe, hne⟩ := hinv.srcd kv hkv
    have hname : kv.2.name = e.name := by
      rw [← hne]
      rfl
    rw [hname] at hbat ⊢
    obtain ⟨h1, h2⟩ := bat_name_not_hid hbat
    rw [isPeripheralName, h1, h2] at hpe
    simpa using hpe

/-- Counterexample to C7 as stated: the power-supply entry named `BATmouse`
starts with `BAT`, yet `detect_all` includes it among the peripheral results. -/
theorem C7_counterexample :
    strStartsWith "BATmouse" "BAT" = true ∧
    ∃ d ∈ PeripheralBattery.detect_all [exampleEntryBatMouse],
      strStartsWith d.name "BAT" = true := by
  refine ⟨by decide, PeripheralBattery.new exampleEntryBatMouse, ?_, by decide⟩
  decide

/-- Witness for C7 (amended) at a concrete one-entry directory. -/
theorem C7_witness :
    ∃ d ∈ PeripheralBattery.detect_all [exampleEntrySerialOnly],
      d.stable_id = (PeripheralBattery.new exampleEntrySerialOnly).stable_id :=
  (C7_detect_all_filter [exampleEntrySerialOnly]).2.1 exampleEntrySerialOnly
    (List.mem_singleton.mpr rfl) (by decide)

theorem charging_not_unknown {s : String} (h : eqIgnoreAsciiCase s "Charging" = true) :
    eqIgnoreAsciiCase s "Unknown" = false := by
  rw [eqIgnoreAsciiCase, beq_iff_eq] at h
  cases hu : eqIgnoreAsciiCase s "Unknown" with
  | false => rfl
  | true =>
    rw [eqIgnoreAsciiCase, beq_iff_eq] at hu
    rw [h] at hu
    exact absurd hu (by decide)

/-- C2: the dedupe score is exactly the five-term additive score of the
specification, hence bounded by 32; a charging status is never the unknown
status, so a charging device receives both status terms and scores at least
4. -/
theorem C2_dedupe_score_five_terms (b : PeripheralBattery) :
    b.dedupe_score = dedupe_score_spec b ∧
    b.dedupe_score ≤ 32 ∧
    (eqIgnoreAsciiCase (strTrim b.status) "Charging" = true →
      eqIgnoreAsciiCase (strTrim b.status) "Unknown" = false ∧
      4 ≤ b.dedupe_score) := by
  refine ⟨?_, ?_, ?_⟩
  · simp only [PeripheralBattery.dedupe_score, dedupe_score_spec, Bool.not_eq_true']
    split_ifs <;> omega
  · simp only [PeripheralBattery.dedupe_score, Bool.not_eq_true']
    split_ifs <;> omega
  · intro h
    have hu := charging_not_unknown h
    refine ⟨hu, ?_⟩
    simp only [PeripheralBattery.dedupe_score, Bool.not_eq_true', hu, h]
    split_ifs <;> omega

/-- Witness for C2 at a concrete charging device. -/
theorem C2_witness :
    exampleChargingDevice.dedupe_score = dedupe_score_spec exampleChargingDevice ∧
    eqIgnoreAsciiCase (strTrim exampleChargingDevice.status) "Unknown" = false ∧
    4 ≤ exampleChargingDevice.dedupe_score :=
  ⟨(C2_dedupe_score_five_terms exampleChargingDevice).1,
   ((C2_dedupe_score_five_terms exampleChargingDevice).2.2 (by decide)).1,
   ((C2_dedupe_score_five_terms exampleChargingDevice).2.2 (by decide)).2⟩

/-- C10: a connected device always scores at least 2, and the converse fails:
a device whose trimmed status is empty and whose other fields are all default
scores exactly 2 yet is reported as not connected. -/
theorem C10_connected_min_score :
    (∀ b : PeripheralBattery, b.is_connected = true → 2 ≤ b.dedupe_score) ∧
    exampleEmptyStatusDevice.dedupe_score = 2 ∧
    exampleEmptyStatusDevice.is_connected = false := by
  refine ⟨?_, by decide, by decide⟩
  intro b h
  rw [PeripheralBattery.is_connected] at h
  simp only [PeripheralBattery.dedupe_score, Bool.not_eq_true']
  split_ifs at h ⊢ <;> try omega
  all_goals
    rw [Bool.and_eq_true, Bool.not_eq_true', Bool.not_eq_true'] at h
    simp_all

/-- Witness for C10 at a concrete online device. -/
theorem C10_witness :
    exampleOnlineDevice.is_connected = true ∧ 2 ≤ exampleOnlineDevice.dedupe_score :=
  ⟨by decide, C10_connected_min_score.1 exampleOnlineDevice (by decide)⟩

/-- C5: `PeripheralBattery::new` is a total function that keeps the given
device name and substitutes a fixed default for every field whose sysfs file
is missing or unparsable; `online` is true exactly when the online file parses
to the value 1. -/
theorem C5_peripheral_new_defaults (dev : SysfsDevice) :
    (PeripheralBattery.new dev).name = dev.name ∧
    (dev.files "manufacturer" = none → (PeripheralBattery.new dev).manufacturer = "Unknown") ∧
    (dev.files "model_name" = none → (PeripheralBattery.new dev).model_name = "Unknown") ∧
    (dev.files "status" = none → (PeripheralBattery.new dev).status = "Unknown") ∧
    (dev.files "type" = none → (PeripheralBattery.new dev).device_type = "Unknown") ∧
    (dev.files "scope" = none → (PeripheralBattery.new dev).scope = "Unknown") ∧
    (PeripheralBattery.read_sysfs_u8 dev "capacity" = none →
      (PeripheralBattery.new dev).capacity_percent = 0) ∧
    ((PeripheralBattery.new dev).online = true ↔
      PeripheralBattery.read_sysfs_u8 dev "online" = some 1) ∧
    (PeripheralBattery.read_sysfs_u64 dev "voltage_now" = none →
      (PeripheralBattery.new dev).voltage_now = none) ∧
    (dev.files "serial_number" = none → (PeripheralBattery.new dev).serial_number = none) := by
  refine ⟨rfl, ?_, ?_, ?_, ?_, ?_, ?_, ?_, ?_, ?_⟩
  · intro h
    simp [PeripheralBattery.new, PeripheralBattery.read_sysfs_string, h]
  · intro h
    simp [PeripheralBattery.new, PeripheralBattery.read_sysfs_string, h]
  · intro h
    simp [PeripheralBattery.new, PeripheralBattery.read_sysfs_string, h]
  · intro h
    simp [PeripheralBattery.new, PeripheralBattery.read_sysfs_string, h]
  · intro h
    simp [PeripheralBattery.new, PeripheralBattery.read_sysfs_string, h]
  · intro h
    simp [PeripheralBattery.new, h]
  · show ((PeripheralBattery.read_sysfs_u8 dev "online").getD 0 == 1) = true ↔
      PeripheralBattery.read_sysfs_u8 dev "online" = some 1
    cases hr : PeripheralBattery.read_sysfs_u8 dev "online" with
    | none => simp
    | some n => simp [beq_iff_eq]
  · intro h
    simp [PeripheralBattery.new, h]
  · intro h
    simp [PeripheralBattery.new, PeripheralBattery.read_sysfs_string, h]

/-- Witness for C5 at a concrete device with no readable files. -/
theorem C5_witness :
    (PeripheralBattery.new exampleEntryNoFiles).manufacturer = "Unknown" ∧
    (PeripheralBattery.new exampleEntryNoFiles).voltage_now = none :=
  ⟨(C5_peripheral_new_defaults exampleEntryNoFiles).2.1 rfl,
   (C5_peripheral_new_defaults exampleEntryNoFiles).2.2.2.2.2.2.2.2.1 rfl⟩

theorem bool_ne_false {b : Bool} (h : b ≠ false) : b = true := by
  cases b
  · exact absurd rfl h
  · rfl

theorem bool_ne_true {b : Bool} (h : b ≠ true) : b = false := by
  cases b
  · rfl
  · exact absurd rfl h

theorem new_isOk_iff (fs : String → Option String) (svc : Bool) (battery_name : String) :
    isOkB (BatteryInfo.new fs svc battery_name) = true ↔
      (strStartsWith battery_name "BAT" = true ∧ strContains battery_name ".." = false ∧
        strContainsChar battery_name '/' = false ∧
        strContainsChar battery_name '\\' = false) := by
  rw [BatteryInfo.new]
  split_ifs with hA hB
  · rw [Bool.not_eq_true'] at hA
    constructor
    · intro h
      simp [isOkB] at h
    · rintro ⟨hc1, _, _, _⟩
      rw [hA] at hc1
      exact absurd hc1 (by decide)
  · constructor
    · intro h
      simp [isOkB] at h
    · rintro ⟨_, hc2, hc3, hc4⟩
      simp only [Bool.or_eq_true] at hB
      rcases hB with (h | h) | h
      · rw [hc2] at h
        exact absurd h (by decide)
      · rw [hc3] at h
        exact absurd h (by decide)
      · rw [hc4] at h
        exact absurd h (by decide)
  · rw [Bool.not_eq_true, Bool.not_eq_false'] at hA
    rw [Bool.not_eq_true] at hB
    simp only [Bool.or_eq_false_iff] at hB
    constructor
    · intro _
      exact ⟨hA, hB.1.1, hB.1.2, hB.2⟩
    · intro _
      rfl

/-- C4: the embedded `BatteryInfo::new` fails exactly on names that do not
start with `BAT` or contain `..`, `/` or `\`; the only error it ever produces
is `InvalidBatteryName`; and for a name passing validation it succeeds even
when every sysfs read fails, substituting the documented defaults. -/
theorem C4_battery_new_validation (fs : String → Option String) (svc : Bool)
    (battery_name : String) :
    (isOkB (BatteryInfo.new fs svc battery_name) = false ↔
      (strStartsWith battery_name "BAT" = false ∨ strContains battery_name ".." = true ∨
        strContainsChar battery_name '/' = true ∨
        strContainsChar battery_name '\\' = true)) ∧
    (∀ err, BatteryInfo.new fs svc battery_name = .error err →
      ∃ s, err = BatteryError.InvalidBatteryName s) ∧
    (∀ b, BatteryInfo.new (fun _ => none) svc battery_name = .ok b →
      b.capacity_percent = 0 ∧ b.charge_now = 0 ∧ b.charge_full = 1 ∧
        b.charge_full_design = 1 ∧ b.status = "Inconnu") := by
  refine ⟨?_, ?_, ?_⟩
  · have hiff := new_isOk_iff fs svc battery_name
    constructor
    · intro h
      by_contra hc
      push_neg at hc
      obtain ⟨hc1, hc2, hc3, hc4⟩ := hc
      rw [hiff.mpr ⟨bool_ne_false hc1, bool_ne_true hc2, bool_ne_true hc3,
        bool_ne_true hc4⟩] at h
      exact absurd h (by decide)
    · intro h
      cases hok : isOkB (BatteryInfo.new fs svc battery_name) with
      | false => rfl
      | true =>
        obtain ⟨hc1, hc2, hc3, hc4⟩ := hiff.mp hok
        rcases h with h | h | h | h
        · rw [hc1] at h
          exact absurd h (by decide)
        · rw [hc2] at h
          exact absurd h (by decide)
        · rw [hc3] at h
          exact absurd h (by decide)
        · rw [hc4] at h
          exact absurd h (by decide)
  · intro err herr
    rw [BatteryInfo.new] at herr
    split_ifs at herr
    · exact ⟨battery_name, (Except.error.inj herr).symm⟩
    · exact ⟨"Invalid battery name (potential path traversal): " ++ battery_name,
        (Except.error.inj herr).symm⟩
  · intro b hb
    rw [BatteryInfo.new] at hb
    split_ifs at hb
    obtain rfl := (Except.ok.inj hb).symm
    exact ⟨rfl, rfl, rfl, rfl, rfl⟩

/-- Witness for C4: the name `AC0` is rejected with `InvalidBatteryName`, and
the name `BAT0` is accepted even on an empty filesystem. -/
theorem C4_witness :
    (∃ s, BatteryError.InvalidBatteryName "AC0" = BatteryError.InvalidBatteryName s) ∧
    isOkB (BatteryInfo.new (fun _ => none) false "BAT0") = true :=
  ⟨(C4_battery_new_validation (fun _ => none) false "AC0").2.1
      (BatteryError.InvalidBatteryName "AC0") rfl,
   by
     cases hok : isOkB (BatteryInfo.new (fun _ => none) false "BAT0") with
     | true => rfl
     | false =>
       have h := (C4_battery_new_validation (fun _ => none) false "BAT0").1.mp hok
       exact absurd h (by decide)⟩

theorem strLt_of_le_of_ne {a b : String} (hle : strLe a b) (hne : a ≠ b) :
    strLt a b = true := by
  cases h : strLt a b with
  | true => rfl
  | false => exact absurd (strLt_connex h hle) hne

/-- C9 (amended): `get_battery_list` returns exactly the directory entries
whose name starts with `BAT`, in strictly ascending lexicographic order when
the directory entries are distinct; every returned name starts with `BAT`,
hence passes the starts-with check of `BatteryInfo::new`, and is accepted by
`new` provided it also avoids `..`, `/` and `\`. -/
theorem C9_get_battery_list (entries : List String) (hnd : entries.Nodup) :
    (∀ x, x ∈ BatteryInfo.get_battery_list entries ↔
      (x ∈ entries ∧ strStartsWith x "BAT" = true)) ∧
    (BatteryInfo.get_battery_list entries).Pairwise (fun a b => strLt a b = true) ∧
    (∀ x ∈ BatteryInfo.get_battery_list entries, strStartsWith x "BAT" = true ∧
      (strContains x ".." = false → strContainsChar x '/' = false →
        strContainsChar x '\\' = false →
        ∀ fs svc, isOkB (BatteryInfo.new fs svc x) = true)) := by
  have hperm := List.perm_insertionSort strLe
    (entries.filter fun name => strStartsWith name "BAT")
  have hmem : ∀ x, x ∈ BatteryInfo.get_battery_list entries ↔
      (x ∈ entries ∧ strStartsWith x "BAT" = true) := by
    intro x
    rw [BatteryInfo.get_battery_list, hperm.mem_iff, List.mem_filter]
  refine ⟨hmem, ?_, ?_⟩
  · have hsorted : List.Sorted strLe (BatteryInfo.get_battery_list entries) :=
      List.sorted_insertionSort strLe _
    have hnodup : (BatteryInfo.get_battery_list entries).Nodup := by
      rw [BatteryInfo.get_battery_list, hperm.nodup_iff]
      exact List.Nodup.filter _ hnd
    have hand := List.Pairwise.and hsorted hnodup
    exact hand.imp fun hab => strLt_of_le_of_ne hab.1 hab.2
  · intro x hx
    obtain ⟨_, hbat⟩ := (hmem x).mp hx
    refine ⟨hbat, ?_⟩
    intro h2 h3 h4 fs svc
    exact (new_isOk_iff fs svc x).mpr ⟨hbat, h2, h3, h4⟩

/-- Counterexample to C9 as stated: the entry name `BAT..` is returned by
`get_battery_list` yet rejected by the name validation of `BatteryInfo::new`. -/
theorem C9_counterexample :
    "BAT.." ∈ BatteryInfo.get_battery_list ["BAT.."] ∧
    isOkB (BatteryInfo.new (fun _ => none) false "BAT..") = false := by
  constructor
  · decide
  · decide

/-- Witness for C9 (amended) at a concrete three-entry directory. -/
theorem C9_witness :
    ("BAT0" ∈ BatteryInfo.get_battery_list ["BAT1", "BAT0", "AC"]) ∧
    isOkB (BatteryInfo.new (fun _ => none) false "BAT0") = true := by
  have h := C9_get_battery_list ["BAT1", "BAT0", "AC"] (by decide)
  have hx0 : "BAT0" ∈ BatteryInfo.get_battery_list ["BAT1", "BAT0", "AC"] :=
    (h.1 "BAT0").mpr ⟨by decide, by decide⟩
  exact ⟨hx0, (h.2.2 "BAT0" hx0).2 (by decide) (by decide) (by decide) (fun _ => none) false⟩

set_option maxHeartbeats 2000000 in
/-- C6: `identify_vendor` returns `Generic` exactly when the manufacturer
string contains none of the fourteen vendor substrings and the lowercased
product does not contain `thinkpad`; and the candidate threshold-file lists
are a function of the vendor enum alone (equal enums give equal lists). -/
theorem C6_identify_vendor_generic (manufacturer product : String) :
    (VendorInfo.identify_vendor manufacturer product = VendorType.Generic ↔
      (strContains manufacturer "asus" = false ∧ strContains manufacturer "asustek" = false ∧
        strContains manufacturer "lenovo" = false ∧ strContains manufacturer "dell" = false ∧
        strContains manufacturer "huawei" = false ∧
        strContains manufacturer "system76" = false ∧
        strContains manufacturer "tuxedo" = false ∧
        strContains manufacturer "samsung" = false ∧
        strContains manufacturer "sony" = false ∧ strContains manufacturer "lg" = false ∧
        strContains manufacturer "micro-star" = false ∧
        strContains manufacturer "msi" = false ∧
        strContains manufacturer "toshiba" = false ∧
        strContains manufacturer "apple" = false ∧
        strContains (rustToLowercase product) "thinkpad" = false)) ∧
    (∀ m2 p2, VendorInfo.identify_vendor manufacturer product =
        VendorInfo.identify_vendor m2 p2 →
      VendorInfo.get_threshold_files (VendorInfo.identify_vendor manufacturer product) =
        VendorInfo.get_threshold_files (VendorInfo.identify_vendor m2 p2)) := by
  constructor
  · rw [VendorInfo.identify_vendor]
    split_ifs with h1 h2 h3 h4 h5 h6 h7 h8 h9 h10 h11 h12
    · rw [Bool.or_eq_true] at h1
      rcases h1 with h | h <;> simp_all
    · rw [Bool.or_eq_true] at h2
      rcases h2 with h | h <;> simp_all
    · simp_all
    · simp_all
    · simp_all
    · simp_all
    · simp_all
    · simp_all
    · simp_all
    · rw [Bool.or_eq_true] at h10
      rcases h10 with h | h <;> simp_all
    · simp_all
    · simp_all
    · simp_all
  · intro m2 p2 h
    rw [h]

/-- Witness for C6 at two concrete generic manufacturer strings. -/
theorem C6_witness :
    VendorInfo.identify_vendor "acme computer" "Standard PC" = VendorType.Generic ∧
    VendorInfo.get_threshold_files
        (VendorInfo.identify_vendor "acme computer" "Standard PC") =
      VendorInfo.get_threshold_files (VendorInfo.identify_vendor "foo inc." "Desktop") :=
  ⟨(C6_identify_vendor_generic "acme computer" "Standard PC").1.mpr (by decide),
   (C6_identify_vendor_generic "acme computer" "Standard PC").2 "foo inc." "Desktop"
     (by decide)⟩

/-- C8: `apply_thresholds` is a pure validation: it fails exactly when the
stop threshold exceeds 100, or a start threshold is given that exceeds 100 or
is not strictly below the stop threshold; the outcome depends neither on the
writer value nor on the battery name, so no state is touched. -/
theorem C8_apply_thresholds_validation (w : SystemThresholdWriter) (battery : String)
    (start : Option Nat) (stop : Nat) :
    (isOkT (w.apply_thresholds battery start stop) = false ↔
      (100 < stop ∨ ∃ s, start = some s ∧ (100 < s ∨ stop ≤ s))) ∧
    (∀ w2 battery2, w.apply_thresholds battery start stop =
      SystemThresholdWriter.apply_thresholds w2 battery2 start stop) := by
  constructor
  · cases start with
    | none =>
      simp only [SystemThresholdWriter.apply_thresholds]
      split_ifs with hstop
      · constructor
        · intro _
          exact Or.inl hstop
        · intro _
          rfl
      · constructor
        · intro h
          simp [isOkT] at h
        · intro h
          rcases h with h | ⟨s, hs, _⟩
          · exact absurd h hstop
          · exact hs.elim
    | some s =>
      simp only [SystemThresholdWriter.apply_thresholds]
      split_ifs with hstop hs1 hs2
      · constructor
        · intro _
          exact Or.inl hstop
        · intro _
          rfl
      · constructor
        · intro _
          exact Or.inr ⟨s, rfl, Or.inl hs1⟩
        · intro _
          rfl
      · constructor
        · intro _
          exact Or.inr ⟨s, rfl, Or.inr hs2⟩
        · intro _
          rfl
      · constructor
        · intro h
          simp [isOkT] at h
        · intro h
          rcases h with h | ⟨s2, hs2eq, hc⟩
          · exact absurd h hstop
          · obtain rfl := Option.some.inj hs2eq
            rcases hc with hc | hc
            · exact absurd hc hs1
            · exact absurd hc hs2
  · intro w2 battery2
    rfl

/-- Witness for C8: a start threshold equal to the stop threshold is
rejected. -/
theorem C8_witness :
    isOkT (SystemThresholdWriter.apply_thresholds ⟨true⟩ "BAT0" (some 80) 80) = false :=
  (C8_apply_thresholds_validation ⟨true⟩ "BAT0" (some 80) 80).1.mpr
    (Or.inr ⟨80, rfl, Or.inr (by decide)⟩)

/-- Witness for C3 at a concrete two-entry directory. -/
theorem C3_witness :
    (PeripheralBattery.detect_all [exampleEntrySerialOnly, exampleEntryOnline]).Pairwise
      (fun a b => a.stable_id ≠ b.stable_id) :=
  (C3_detect_all_unique_stable_id [exampleEntrySerialOnly, exampleEntryOnline]).1
